import Mathlib

/-!
Verification of the production-chain cost engine and its CLI presentation
layer (cli/command/product.go), against the natural-language specification.

Numeric embedding: the Go code computes with shopspring/decimal, an
arbitrary-precision decimal type.  Addition, subtraction and multiplication
of such decimals are exact, so they are embedded as exact arithmetic on ℚ.
Division (Decimal.Div) is not exact: it rounds the quotient to
DivisionPrecision = 16 decimal places, half away from zero (DivRound), and
Decimal.Round(0) rounds to the nearest integer, ties away from zero.  Both
roundings are modelled explicitly below.  Integer fields reach decimal via
decimal.NewFromFloat(float64(n)); all such fields originate from proto
int32 values, for which the float64 conversion is exact, so the conversion
is embedded as the exact cast ℤ → ℚ.
-/

namespace Motki

/-- Rounding to the nearest integer, ties away from zero.  This is the
rounding used both by shopspring Decimal.Round (for places = 0) and, scaled,
by DivRound. -/
def roundHalfAway (x : ℚ) : ℤ :=
  if 0 ≤ x then ⌊x + 1 / 2⌋ else ⌈x - 1 / 2⌉

/-- shopspring DivRound: the exact quotient a / b rounded half away from zero
to the given number of decimal places. -/
def divRound (prec : ℕ) (a b : ℚ) : ℚ :=
  (roundHalfAway (a / b * 10 ^ prec) : ℚ) / 10 ^ prec

/-- shopspring Decimal.Div: DivRound at DivisionPrecision = 16 decimal
places.  (Go panics when b = 0; every Div in the sources is either guarded
by a zero test or divides by 1 + materialEfficiency, so the ℚ convention
a / 0 = 0 is never load-bearing in the theorems below.) -/
def decimalDiv (a b : ℚ) : ℚ :=
  divRound 16 a b

/-- model.ProductKind: the per-node Buy/Build policy.  model.ProductBuy is
buy, model.ProductManufacture is manufacture (displayed as Build). -/
inductive ProductKind where
  | buy
  | manufacture
deriving DecidableEq

/-- Whether a kind is Buy, as a Boolean. -/
def ProductKind.isBuy : ProductKind → Bool
  | .buy => true
  | .manufacture => false

mutual
/-- model.Product: one node of a production chain.  The materials list is
represented by the companion type Materials so that structurally recursive
definitions over the tree are available. -/
inductive Product where
  | mk (productID typeID quantity : ℤ) (marketPrice : ℚ) (marketRegionID : ℤ)
      (materialEfficiency : ℚ) (batchSize : ℤ) (kind : ProductKind)
      (materials : Materials)

/-- The ordered list of child products of a node (Go: []*model.Product). -/
inductive Materials where
  | nil
  | cons (head : Product) (tail : Materials)
end

def Product.productID : Product → ℤ
  | .mk pid _ _ _ _ _ _ _ _ => pid

def Product.typeID : Product → ℤ
  | .mk _ t _ _ _ _ _ _ _ => t

def Product.quantity : Product → ℤ
  | .mk _ _ q _ _ _ _ _ _ => q

def Product.marketPrice : Product → ℚ
  | .mk _ _ _ mp _ _ _ _ _ => mp

def Product.marketRegionID : Product → ℤ
  | .mk _ _ _ _ rid _ _ _ _ => rid

def Product.materialEfficiency : Product → ℚ
  | .mk _ _ _ _ _ me _ _ _ => me

def Product.batchSize : Product → ℤ
  | .mk _ _ _ _ _ _ bs _ _ => bs

def Product.kind : Product → ProductKind
  | .mk _ _ _ _ _ _ _ k _ => k

def Product.materials : Product → Materials
  | .mk _ _ _ _ _ _ _ _ ms => ms

def Product.withMarketPrice (v : ℚ) : Product → Product
  | .mk pid t q _ rid me bs k ms => .mk pid t q v rid me bs k ms

def Product.withMaterialEfficiency (v : ℚ) : Product → Product
  | .mk pid t q mp rid _ bs k ms => .mk pid t q mp rid v bs k ms

def Product.withBatchSize (v : ℤ) : Product → Product
  | .mk pid t q mp rid me _ k ms => .mk pid t q mp rid me v k ms

def Product.withKind (v : ProductKind) : Product → Product
  | .mk pid t q mp rid me bs _ ms => .mk pid t q mp rid me bs v ms

def Product.withMaterials (v : Materials) : Product → Product
  | .mk pid t q mp rid me bs k _ => .mk pid t q mp rid me bs k v

def Materials.toList : Materials → List Product
  | .nil => []
  | .cons m rest => m :: rest.toList

def Materials.length : Materials → ℕ
  | .nil => 0
  | .cons _ rest => rest.length + 1

/-- Mapping a (non-recursive) transformation over a materials list, as the
Go range loops do. -/
def Materials.map (f : Product → Product) : Materials → Materials
  | .nil => .nil
  | .cons m rest => .cons (f m) (rest.map f)

mutual
/-- Modelled from the spec: model.Product.Cost lives in the model package,
which is not among these sources; only its callers are.  Spec §4.2: a Buy
node costs its market price; a Build node costs the total material cost of
one production run divided by its batch size, where each material m
contributes Cost(m) × qty(m) and qty(m) = round(m.quantity × node.batchSize
/ (1 + node.materialEfficiency)), rounded to the nearest integer, ties away
from zero; an empty materials list yields cost 0. -/
def Product.Cost : Product → ℚ
  | .mk _ _ _ mp _ _ _ .buy _ => mp
  | .mk _ _ _ _ _ me bs .manufacture ms => Materials.costSum me (bs : ℚ) ms / (bs : ℚ)

/-- Total material cost of one production run of the parent: the sum over
the children of Cost(m) × qty(m), with the parent's material efficiency and
batch size applied to each child's base quantity (spec §4.2). -/
def Materials.costSum (me bs : ℚ) : Materials → ℚ
  | .nil => 0
  | .cons m rest =>
      m.Cost * (roundHalfAway ((m.quantity : ℚ) * bs / (1 + me)) : ℚ)
        + Materials.costSum me bs rest
end

mutual
/-- Whether every node of a chain, the root included, has kind Buy. -/
def Product.allBuy : Product → Bool
  | .mk _ _ _ _ _ _ _ k ms => k.isBuy && ms.allBuyList

def Materials.allBuyList : Materials → Bool
  | .nil => true
  | .cons m rest => m.allBuy && rest.allBuyList
end

mutual
/-- Modelled from the spec: model.Manager.UpdateProductMarketPrices (the
Price Synchronizer) is not among these sources.  Spec §4.3: every node of
the tree, regardless of kind, gets marketPrice set to the region's price for
its typeId (0 when the service reports none, folded here into the prices
function) and marketRegionId set to the target region; no other field is
touched. -/
def updateProductMarketPrices (prices : ℤ → ℚ) (regionID : ℤ) : Product → Product
  | .mk pid t q _ _ me bs k ms =>
      .mk pid t q (prices t) regionID me bs k (updateMarketPricesList prices regionID ms)

def updateMarketPricesList (prices : ℤ → ℚ) (regionID : ℤ) : Materials → Materials
  | .nil => .nil
  | .cons m rest =>
      .cons (updateProductMarketPrices prices regionID m)
        (updateMarketPricesList prices regionID rest)
end

/-!
printProductInfo (cli/command/product.go lines 106-142): the derived
presentation quantities for the root of a displayed chain.
-/

/-- printProductInfo: costEach := p.Cost().Mul(batchSize), an exact decimal
multiplication. -/
def costEach (p : Product) : ℚ :=
  p.Cost * (p.batchSize : ℚ)

/-- printProductInfo: batchQuantity := decimal(p.Quantity).Mul(batchSize). -/
def batchQuantity (p : Product) : ℚ :=
  (p.quantity : ℚ) * (p.batchSize : ℚ)

/-- printProductInfo: sellEach := p.MarketPrice.Mul(batchQuantity). -/
def sellEach (p : Product) : ℚ :=
  p.marketPrice * batchQuantity p

/-- printProductInfo: profitEach := sellEach.Sub(costEach). -/
def profitEach (p : Product) : ℚ :=
  sellEach p - costEach p

/-- printProductInfo: marginEach starts at decimal.Zero and is reassigned to
profitEach.Div(sellEach).Mul(100) only when sellEach.Cmp(decimal.Zero) is
nonzero, so the (16-digit) division never runs with a zero divisor. -/
def marginEach (p : Product) : ℚ :=
  if sellEach p = 0 then 0 else decimalDiv (profitEach p) (sellEach p) * 100

/-!
printChildProductInfo (cli/command/product.go lines 148-174): one table row
per direct material.  The statement on line 167 is an unconditional return,
so the recursive descent on lines 168-173 that follows it is unreachable:
the embedded function emits its single row and stops.
-/

/-- printChildProductInfo: qtyAfterME := decimal(p.Quantity)
.Mul(parentBatchSize).Div(one.Add(parentME)).Round(0), with Div rounding to
16 decimal places and Round(0) rounding to the nearest integer, ties away
from zero.  The displayed value is int(qtyAfterME.IntPart()), the integer
itself. -/
def qtyAfterME (quantity : ℤ) (parentBatchSize parentME : ℚ) : ℤ :=
  roundHalfAway (decimalDiv ((quantity : ℚ) * parentBatchSize) (1 + parentME))

/-- One printed row of the production-chain detail table. -/
structure ChildRow where
  lineNo : ℤ
  item : Product
  kindMark : String
  rowCostEach : ℚ
  qtyReq : ℤ
  rowCostTotal : ℚ
  indent : ℕ

/-- printChildProductInfo: increments the shared index, prints exactly one
row for p, and returns (line 167) before the recursive traversal of
p.Materials, which is therefore dead code.  Result: the updated index and
the rows actually printed. -/
def printChildProductInfo (p : Product) (parentBatchSize parentME : ℚ)
    (index : ℤ) (indent : ℕ) : ℤ × List ChildRow :=
  let index' := index + 1
  let q := qtyAfterME p.quantity parentBatchSize parentME
  (index',
    [{ lineNo := index'
       item := p
       kindMark := if p.kind = ProductKind.manufacture then "M" else ""
       rowCostEach := p.Cost
       qtyReq := q
       rowCostTotal := p.Cost * (q : ℚ)
       indent := indent }])

/-- The loop of printProductInfo lines 129-132: each direct material is
passed to printChildProductInfo with the root's batch size and material
efficiency, indent 0, and the running index. -/
def childRowsLoop (bs me : ℚ) : List Product → ℤ → List ChildRow
  | [], _ => []
  | m :: rest, idx =>
      let r := printChildProductInfo m bs me idx 0
      r.2 ++ childRowsLoop bs me rest r.1

/-- The full detail table printed by printProductInfo for the chain p. -/
def productTableRows (p : Product) : List ChildRow :=
  childRowsLoop (p.batchSize : ℚ) p.materialEfficiency p.materials.toList 0

/-!
getProductLineIndex (cli/command/product.go lines 176-185) and the
editor's line-number commands.
-/

/-- The loop of getProductLineIndex: curr starts at 0 and is incremented
before each insertion, so the materials occupy lines 1..n in order. -/
def lineIndexLoop : List Product → ℕ → List (ℕ × Product)
  | [], _ => []
  | m :: rest, curr => (curr + 1, m) :: lineIndexLoop rest (curr + 1)

/-- getProductLineIndex: line 0 is the root, lines 1..n are the direct
materials in insertion order.  The Go map with distinct keys is embedded as
an association list. -/
def getProductLineIndex (p : Product) : List (ℕ × Product) :=
  (0, p) :: lineIndexLoop p.materials.toList 0

/-- Lookup in the line index, as the editor's validLineNumber and
promptLineNumber do with the Go map. -/
def lineLookup (p : Product) (n : ℕ) : Option Product :=
  ((getProductLineIndex p).find? fun e => e.1 == n).map Prod.snd

/-!
previewProduct (cli/command/product.go lines 221-244) and the editor
commands of productEditor (lines 300-475).
-/

/-- previewProduct lines 232-236: after NewProduct returns, every direct
material that itself has materials is set to model.ProductManufacture; the
root and deeper descendants are not touched. -/
def previewPromote (p : Product) : Product :=
  p.withMaterials (p.materials.map fun m =>
    if 0 < m.materials.length then m.withKind ProductKind.manufacture else m)

/-- Editor command C (lines 362-373): set the market price (cost basis) of
the selected line to the prompted decimal; no validation is applied. -/
def editorSetCost (p : Product) (val : ℚ) : Product :=
  p.withMarketPrice val

/-- Editor command F (lines 375-386): set the material efficiency of the
selected line to the prompted decimal; no validation is applied. -/
def editorSetMaterialEfficiency (p : Product) (val : ℚ) : Product :=
  p.withMaterialEfficiency val

/-- Editor command M (lines 388-403): the prompt admits only "buy" or
"build"; "buy" selects ProductBuy and anything else ProductManufacture. -/
def editorSetKind (p : Product) (val : String) : Product :=
  if val = "buy" then p.withKind ProductKind.buy else p.withKind ProductKind.manufacture

/-- Editor command B (lines 405-416): the prompt filters its input through
validateIntGreaterThan(0) (declared outside these sources; modelled from the
spec as admitting exactly the integers greater than 0), so the batch size is
reassigned only when the entered value is positive, and otherwise nothing is
mutated. -/
def editorSetBatchSize (p : Product) (val : ℤ) : Product :=
  if 0 < val then p.withBatchSize val else p

/-- Editor command P (lines 418-425): set the root's desired sell price to
the prompted decimal; no validation is applied. -/
def editorSetSellPrice (p : Product) (val : ℚ) : Product :=
  p.withMarketPrice val

/-- The invariant 0 ≤ materialEfficiency < 1 from spec §3. -/
def meBound (p : Product) : Prop :=
  0 ≤ p.materialEfficiency ∧ p.materialEfficiency < 1

mutual
/-- Modelled from the spec: the catalog side of model.Manager.NewProduct (the
Tree Builder) is not among these sources.  A bill-of-materials tree, as the
acyclic expansion of the Item Catalog data that §4.1 describes: a type ID,
the base quantity required per run of the parent (the desired unit count at
the root), and the child bills. -/
inductive BomTree where
  | node (typeID baseQuantity : ℤ) (children : BomForest)

inductive BomForest where
  | nil
  | cons (t : BomTree) (rest : BomForest)
end

mutual
/-- Modelled from the spec: model.Manager.NewProduct (the Tree Builder) is
not among these sources.  Spec §4.1: every constructed node gets kind = Buy,
batchSize = 1, materialEfficiency = 0, quantity = its base quantity, and its
children are built from its bill of materials; prices are stamped later by
the Price Synchronizer (0 until then). -/
def newProductFromBom : BomTree → Product
  | .node t q cs => .mk 0 t q 0 0 0 1 ProductKind.buy (newMaterialsFromBom cs)

def newMaterialsFromBom : BomForest → Materials
  | .nil => .nil
  | .cons t rest => .cons (newProductFromBom t) (newMaterialsFromBom rest)
end

/-!
Concrete chains used by the counterexamples and witnesses.
-/

/-- A root with quantity 2: two desired units, batch size 1, sold at 10, a
Buy root (its unit cost is its own market price). -/
def exRootQty2 : Product :=
  .mk 0 34 2 10 0 0 1 ProductKind.buy .nil

/-- A Build root with one Buy material: unit cost 2, sell price 3, so the
margin division does not terminate in 16 decimal digits. -/
def exThirdMargin : Product :=
  .mk 0 587 1 3 0 0 1 ProductKind.manufacture
    (.cons (.mk 0 34 1 2 0 0 1 ProductKind.buy .nil) .nil)

/-- A single Buy node with material efficiency 0 and batch size 1. -/
def exPlainNode : Product :=
  .mk 0 34 1 5 0 0 1 ProductKind.buy .nil

/-- A material efficiency within 5·10⁻¹⁷ of the value that would put the
quantity quotient exactly on a rounding tie. -/
def exNearTieME : ℚ :=
  33333333333333335 / 100000000000000000

/-- A bill of materials whose root has one child, which itself has one
child. -/
def exBom : BomTree :=
  .node 1 1 (.cons (.node 2 5 (.cons (.node 3 7 .nil) .nil)) .nil)

/-- A Buy node with quantity 0, so its displayed revenue is zero. -/
def exZeroQty : Product :=
  .mk 0 34 0 5 0 0 1 ProductKind.buy .nil

/-!
Helper lemmas.
-/

theorem Materials.toList_map (f : Product → Product) :
    ∀ ms : Materials, (ms.map f).toList = ms.toList.map f
  | .nil => rfl
  | .cons m rest => by
      simp [Materials.map, Materials.toList, Materials.toList_map f rest]

theorem childRowsLoop_map_item (bs me : ℚ) :
    ∀ (l : List Product) (idx : ℤ),
      (childRowsLoop bs me l idx).map ChildRow.item = l
  | [], _ => rfl
  | m :: rest, idx => by
      simp [childRowsLoop, printChildProductInfo,
        childRowsLoop_map_item bs me rest]

mutual

theorem newProductFromBom_allBuy : ∀ t : BomTree, (newProductFromBom t).allBuy = true
  | .node a b cs => by
      simp [newProductFromBom, Product.allBuy, ProductKind.isBuy,
        newMaterialsFromBom_allBuy cs]

theorem newMaterialsFromBom_allBuy :
    ∀ f : BomForest, (newMaterialsFromBom f).allBuyList = true
  | .nil => by simp [newMaterialsFromBom, Materials.allBuyList]
  | .cons t rest => by
      simp [newMaterialsFromBom, Materials.allBuyList,
        newProductFromBom_allBuy t, newMaterialsFromBom_allBuy rest]

end

theorem promote_kind (m : Product) :
    (if 0 < m.materials.length then m.withKind ProductKind.manufacture else m).kind
      = if 0 < m.materials.length then ProductKind.manufacture else m.kind := by
  cases m with
  | mk pid t q mp rid me bs k ms => split <;> rfl

theorem promote_materials (m : Product) :
    (if 0 < m.materials.length then m.withKind ProductKind.manufacture else m).materials
      = m.materials := by
  cases m with
  | mk pid t q mp rid me bs k ms => split <;> rfl

theorem lineIndexLoop_find :
    ∀ (l : List Product) (c k : ℕ),
      ((lineIndexLoop l c).find? fun e => e.1 == c + k + 1).map Prod.snd = l[k]?
  | [], _, _ => rfl
  | m :: rest, c, 0 => by
      simp [lineIndexLoop, List.find?]
  | m :: rest, c, k + 1 => by
      have harith : c + (k + 1) + 1 = (c + 1) + k + 1 := by omega
      have hfalse : ((c + 1 : ℕ) == (c + 1) + k + 1) = false := by
        simp only [beq_eq_false_iff_ne]
        omega
      simp only [lineIndexLoop, harith, List.find?_cons, hfalse,
        lineIndexLoop_find rest (c + 1) k, List.getElem?_cons_succ]

/-!
The claims.
-/

/-- C1 (corrected): for the displayed root, the presentation layer computes
sell revenue = marketPrice × batchQuantity, as claimed, but profit =
revenue − Cost() × batchSize, not revenue − Cost() × batchQuantity: the
code multiplies the unit cost by the batch size alone (product.go line
108), so the two agree only when the desired quantity is 1. -/
theorem c1_root_revenue_and_profit (p : Product) :
    sellEach p = p.marketPrice * batchQuantity p ∧
      profitEach p = sellEach p - p.Cost * (p.batchSize : ℚ) :=
  ⟨rfl, rfl⟩

/-- C1 counterexample: a Buy root with quantity 2, batch size 1, price 10
has revenue 20 and displayed profit 20 − 10 = 10, whereas the claimed
formula revenue − Cost() × batchQuantity gives 20 − 20 = 0. -/
theorem c1_counterexample :
    profitEach exRootQty2
      ≠ sellEach exRootQty2 - exRootQty2.Cost * batchQuantity exRootQty2 := by
  norm_num [profitEach, sellEach, costEach, batchQuantity, exRootQty2,
    Product.Cost, Product.marketPrice, Product.quantity, Product.batchSize]

/-- C2 (corrected): the quantity printed for a material is
round(div16(m.quantity × parent.batchSize / (1 + parent.materialEfficiency)))
where div16 first rounds the quotient to 16 decimal places half away from
zero (shopspring Div) and the outer round is to the nearest integer, ties
away from zero; the claim's example quantity=100, batchSize=10, ME=0.1
still yields 909. -/
theorem c2_qty_after_me (m : Product) (bs me : ℚ) (idx : ℤ) (ind : ℕ)
    (_h : 0 ≤ me) :
    (printChildProductInfo m bs me idx ind).2.map ChildRow.qtyReq
        = [roundHalfAway (divRound 16 ((m.quantity : ℚ) * bs) (1 + me))] ∧
      qtyAfterME 100 10 (1 / 10) = 909 :=
  ⟨rfl, by norm_num [qtyAfterME, decimalDiv, divRound, roundHalfAway]⟩

/-- C2 witness: the row formula and the 909 example, evaluated at a
concrete material with material efficiency 1/10. -/
theorem c2_qty_after_me_witness :
    (0 : ℚ) ≤ 1 / 10 ∧
      ((printChildProductInfo exPlainNode 10 (1 / 10) 0 0).2.map ChildRow.qtyReq
          = [roundHalfAway (divRound 16 ((exPlainNode.quantity : ℚ) * 10) (1 + 1 / 10))] ∧
        qtyAfterME 100 10 (1 / 10) = 909) :=
  ⟨by norm_num, c2_qty_after_me exPlainNode 10 (1 / 10) 0 0 (by norm_num)⟩

/-- C2 counterexample: with quantity 2, parent batch size 1 and material
efficiency 0.33333333333333335 (within the invariant bounds), the code
prints 2, while rounding the exact quotient 2/1.33333333333333335 ≈
1.4999999999999999812 to the nearest integer, ties away from zero, gives 1:
the 16-digit intermediate rounding of Div lands the quotient exactly on the
tie 1.5, which then rounds up. -/
theorem c2_counterexample :
    qtyAfterME 2 1 exNearTieME = 2 ∧
      roundHalfAway ((2 : ℚ) * 1 / (1 + exNearTieME)) = 1 := by
  constructor <;>
    norm_num [qtyAfterME, decimalDiv, divRound, roundHalfAway, exNearTieME]

/-- C3 (confirmed): the cost of a Buy node is its market price, whatever
its materials are. -/
theorem c3_buy_cost (p : Product) (hk : p.kind = ProductKind.buy) :
    p.Cost = p.marketPrice ∧
      ∀ ms : Materials, (p.withMaterials ms).Cost = p.marketPrice := by
  cases p with
  | mk pid t q mp rid me bs k ms =>
      simp only [Product.kind] at hk
      subst hk
      constructor
      · simp [Product.Cost, Product.marketPrice]
      · intro ms'
        simp [Product.withMaterials, Product.Cost, Product.marketPrice]

/-- C3 witness: a concrete Buy node costs its market price with its own
materials and with any replacement materials. -/
theorem c3_buy_cost_witness :
    exPlainNode.kind = ProductKind.buy ∧
      exPlainNode.Cost = exPlainNode.marketPrice ∧
      (exPlainNode.withMaterials (.cons exRootQty2 .nil)).Cost
        = exPlainNode.marketPrice :=
  ⟨rfl, (c3_buy_cost exPlainNode rfl).1,
    (c3_buy_cost exPlainNode rfl).2 (.cons exRootQty2 .nil)⟩

/-- C4 (corrected): immediately after tree construction every node's kind
is Buy, but the preview/new flow then automatically promotes every direct
material that itself has materials to Build (previewProduct lines 232-236),
with the root's kind and each material's subtree untouched; promotions of
any other node require an explicit operator action. -/
theorem c4_kind_after_construction :
    (∀ bom : BomTree, (newProductFromBom bom).allBuy = true) ∧
      ∀ p : Product,
        (previewPromote p).kind = p.kind ∧
          (previewPromote p).materials.toList.map Product.kind
            = p.materials.toList.map
                (fun m => if 0 < m.materials.length then ProductKind.manufacture else m.kind) ∧
          (previewPromote p).materials.toList.map Product.materials
            = p.materials.toList.map Product.materials := by
  refine ⟨newProductFromBom_allBuy, fun p => ?_⟩
  cases p with
  | mk pid t q mp rid me bs k ms =>
      refine ⟨rfl, ?_, ?_⟩ <;>
        · simp only [previewPromote, Product.withMaterials, Product.materials,
            Materials.toList_map, List.map_map]
          refine List.map_congr_left fun a _ha => ?_
          simp only [Function.comp]
          first
          | exact promote_kind a
          | exact promote_materials a

/-- C4 counterexample: building from a bill of materials whose single
direct material itself has a material yields an all-Buy tree, yet after the
automatic preview pass that material's kind is Build with no operator
action involved. -/
theorem c4_counterexample :
    (newProductFromBom exBom).allBuy = true ∧
      (previewPromote (newProductFromBom exBom)).materials.toList.map Product.kind
        = [ProductKind.manufacture] := by
  constructor
  · simp [exBom, newProductFromBom, newMaterialsFromBom, Product.allBuy,
      Materials.allBuyList, ProductKind.isBuy]
  · simp [exBom, newProductFromBom, newMaterialsFromBom, previewPromote,
      Product.withMaterials, Product.materials, Materials.map,
      Materials.length, Materials.toList, Product.withKind, Product.kind]

/-- C5 (corrected): every editor command other than F, and the price
synchronizer, leave a node's material efficiency unchanged and hence
preserve the bound 0 ≤ me < 1; the F command assigns the prompted value
unvalidated, so the bound holds afterwards exactly when the entered value
itself lies in [0, 1). -/
theorem c5_me_bound_mutations (p : Product) (v : ℚ) (s : String) (n : ℤ)
    (prices : ℤ → ℚ) (rid : ℤ) :
    (editorSetCost p v).materialEfficiency = p.materialEfficiency ∧
      (editorSetSellPrice p v).materialEfficiency = p.materialEfficiency ∧
      (editorSetKind p s).materialEfficiency = p.materialEfficiency ∧
      (editorSetBatchSize p n).materialEfficiency = p.materialEfficiency ∧
      (updateProductMarketPrices prices rid p).materialEfficiency = p.materialEfficiency ∧
      (editorSetMaterialEfficiency p v).materialEfficiency = v ∧
      (meBound (editorSetMaterialEfficiency p v) ↔ 0 ≤ v ∧ v < 1) := by
  cases p with
  | mk pid t q mp rid0 me bs k ms =>
      refine ⟨rfl, rfl, ?_, ?_, ?_, rfl, ?_⟩
      · unfold editorSetKind
        split <;> rfl
      · unfold editorSetBatchSize
        split <;> rfl
      · simp [updateProductMarketPrices, Product.materialEfficiency]
      · simp [meBound, editorSetMaterialEfficiency,
          Product.withMaterialEfficiency, Product.materialEfficiency]

/-- C5 witness: the mutation characterization evaluated at a concrete node
with concrete arguments. -/
theorem c5_me_bound_mutations_witness :
    (editorSetCost exPlainNode (1 / 2)).materialEfficiency = exPlainNode.materialEfficiency ∧
      (editorSetSellPrice exPlainNode (1 / 2)).materialEfficiency = exPlainNode.materialEfficiency ∧
      (editorSetKind exPlainNode "buy").materialEfficiency = exPlainNode.materialEfficiency ∧
      (editorSetBatchSize exPlainNode 3).materialEfficiency = exPlainNode.materialEfficiency ∧
      (updateProductMarketPrices (fun _ => 0) 0 exPlainNode).materialEfficiency
        = exPlainNode.materialEfficiency ∧
      (editorSetMaterialEfficiency exPlainNode (1 / 2)).materialEfficiency = 1 / 2 ∧
      (meBound (editorSetMaterialEfficiency exPlainNode (1 / 2)) ↔
        (0 : ℚ) ≤ 1 / 2 ∧ (1 : ℚ) / 2 < 1) :=
  c5_me_bound_mutations exPlainNode (1 / 2) "buy" 3 (fun _ => 0) 0

/-- C5 counterexample: a node whose material efficiency satisfies the bound
before the F command violates it afterwards when the operator enters 2,
which the editor accepts without validation. -/
theorem c5_counterexample :
    meBound exPlainNode ∧ ¬ meBound (editorSetMaterialEfficiency exPlainNode 2) := by
  constructor <;>
    norm_num [meBound, exPlainNode, editorSetMaterialEfficiency,
      Product.withMaterialEfficiency, Product.materialEfficiency]

/-- C6 (confirmed): the batch-size command admits only integers greater
than 0 (rejected input mutates nothing), and no other editor command or the
price synchronizer touches the batch size, so every operation preserves
batchSize ≥ 1. -/
theorem c6_batch_size_bound (p : Product) (v : ℤ) (c : ℚ) (s : String)
    (w : ℚ) (prices : ℤ → ℚ) (rid : ℤ) (h : 1 ≤ p.batchSize) :
    1 ≤ (editorSetBatchSize p v).batchSize ∧
      (editorSetCost p c).batchSize = p.batchSize ∧
      (editorSetSellPrice p c).batchSize = p.batchSize ∧
      (editorSetKind p s).batchSize = p.batchSize ∧
      (editorSetMaterialEfficiency p w).batchSize = p.batchSize ∧
      (updateProductMarketPrices prices rid p).batchSize = p.batchSize := by
  cases p with
  | mk pid t q mp rid0 me bs k ms =>
      simp only [Product.batchSize] at h
      refine ⟨?_, rfl, rfl, ?_, rfl, ?_⟩
      · unfold editorSetBatchSize
        split
        · next hv => simpa [Product.withBatchSize, Product.batchSize] using hv
        · simpa [Product.batchSize] using h
      · unfold editorSetKind
        split <;> rfl
      · simp [updateProductMarketPrices, Product.batchSize]

/-- C6 witness: a node with batch size 1 keeps batch size ≥ 1 under every
operation, here with the rejected input −3. -/
theorem c6_batch_size_bound_witness :
    (1 : ℤ) ≤ exPlainNode.batchSize ∧
      (1 ≤ (editorSetBatchSize exPlainNode (-3)).batchSize ∧
        (editorSetCost exPlainNode 0).batchSize = exPlainNode.batchSize ∧
        (editorSetSellPrice exPlainNode 0).batchSize = exPlainNode.batchSize ∧
        (editorSetKind exPlainNode "buy").batchSize = exPlainNode.batchSize ∧
        (editorSetMaterialEfficiency exPlainNode 0).batchSize = exPlainNode.batchSize ∧
        (updateProductMarketPrices (fun _ => 0) 0 exPlainNode).batchSize
          = exPlainNode.batchSize) :=
  ⟨by norm_num [exPlainNode, Product.batchSize],
    c6_batch_size_bound exPlainNode (-3) 0 "buy" 0 (fun _ => 0) 0
      (by norm_num [exPlainNode, Product.batchSize])⟩

/-- C7 (corrected): the margin is 0 when the revenue is 0 and the division
never runs with a zero divisor, as claimed; when the revenue is nonzero,
however, the computed margin is div16(profit / revenue) × 100, the quotient
being rounded to 16 decimal places half away from zero by shopspring Div,
not the exact profit / revenue × 100. -/
theorem c7_margin_zero_guard (p : Product) :
    (sellEach p = 0 → marginEach p = 0) ∧
      (sellEach p ≠ 0 →
        marginEach p = decimalDiv (profitEach p) (sellEach p) * 100) := by
  unfold marginEach
  constructor <;> intro h <;> simp [h]

/-- C7 witness: both branches of the margin characterization, at a
zero-revenue node and at a revenue-3 node. -/
theorem c7_margin_zero_guard_witness :
    (sellEach exZeroQty = 0 ∧ marginEach exZeroQty = 0) ∧
      (sellEach exThirdMargin ≠ 0 ∧
        marginEach exThirdMargin
          = decimalDiv (profitEach exThirdMargin) (sellEach exThirdMargin) * 100) := by
  have h0 : sellEach exZeroQty = 0 := by
    norm_num [sellEach, batchQuantity, exZeroQty, Product.marketPrice,
      Product.quantity, Product.batchSize]
  have h3 : sellEach exThirdMargin ≠ 0 := by
    norm_num [sellEach, batchQuantity, exThirdMargin, Product.marketPrice,
      Product.quantity, Product.batchSize]
  exact ⟨⟨h0, (c7_margin_zero_guard exZeroQty).1 h0⟩,
    ⟨h3, (c7_margin_zero_guard exThirdMargin).2 h3⟩⟩

/-- C7 counterexample: for a chain with revenue 3 and profit 1 the code
computes margin 33.33333333333333 (the quotient 1/3 rounded to 16 decimal
places, times 100), which differs from the exact profit / revenue × 100 =
100/3. -/
theorem c7_counterexample :
    marginEach exThirdMargin
      ≠ profitEach exThirdMargin / sellEach exThirdMargin * 100 := by
  norm_num [marginEach, profitEach, sellEach, costEach, batchQuantity,
    exThirdMargin, Product.Cost, Materials.costSum, decimalDiv, divRound,
    roundHalfAway, Product.marketPrice, Product.quantity, Product.batchSize,
    Product.materialEfficiency, Product.kind]

/-- C9 (confirmed): printChildProductInfo prints exactly one row per
invocation (its recursive descent sits after an unconditional return and is
never reached), so the detail table holds exactly one row per direct
material of the root, in order, and no deeper descendant. -/
theorem c9_one_row_per_material :
    (∀ (m : Product) (bs me : ℚ) (idx : ℤ) (ind : ℕ),
        ((printChildProductInfo m bs me idx ind).2).length = 1) ∧
      ∀ p : Product, (productTableRows p).map ChildRow.item = p.materials.toList := by
  refine ⟨fun _ _ _ _ _ => rfl, fun p => ?_⟩
  unfold productTableRows
  exact childRowsLoop_map_item _ _ _ _

/-- C10 (confirmed): the line index maps 0 to the root and i + 1 to the
i-th direct material, and nothing else, so a line-number command can only
ever select the root or one of its direct children. -/
theorem c10_line_index (p : Product) (n : ℕ) :
    lineLookup p n = if n = 0 then some p else p.materials.toList[n - 1]? := by
  unfold lineLookup getProductLineIndex
  cases n with
  | zero => simp [List.find?]
  | succ k =>
      have hfalse : ((0 : ℕ) == k + 1) = false := by
        simp only [beq_eq_false_iff_ne]
        omega
      have h := lineIndexLoop_find p.materials.toList 0 k
      simp only [Nat.zero_add] at h
      simp [List.find?_cons, hfalse, h]

end Motki
